import Mathlib

/-!
Verification of the scan-analysis orchestration of the medical-diagnostics
backend (`app/services/llm_service.py`).

The embedding models the module shallowly:

* JSON-like Python values are `JVal`; Python dicts are association lists
  (`Dict`) with insertion order preserved, matching CPython semantics.
* External collaborators (HTTP transport, the two remote models, the
  filesystem, `json.loads`, `ast.literal_eval`) are parameters of the
  functions that call them; each parameter records exactly the success /
  exception behaviour the source distinguishes.
* A Python exception propagating out of a function is `Except.error msg`;
  a normal return of a dict is `Except.ok d`.
-/

set_option maxRecDepth 4000

namespace MedScan

/-- JSON-like values as produced by `json.loads` / handled by the module. -/
inductive JVal where
  | null
  | bool (b : Bool)
  | num (n : Int)
  | str (s : String)
  | arr (xs : List JVal)
  | obj (kvs : List (String × JVal))

/-- A Python dict with string keys, in insertion order. -/
abbrev Dict := List (String × JVal)

/-- `d.get(k)` returning `Option`: first binding of `k`. -/
def jget? (d : Dict) (k : String) : Option JVal :=
  (d.find? (fun kv => kv.1 == k)).map (fun kv => kv.2)

/-- Python `d.get(k, v)`: lookup with default. -/
def jgetD (d : Dict) (k : String) (v : JVal) : JVal :=
  (jget? d k).getD v

/-- Python `d.get(k)`: lookup defaulting to `None`. -/
def jgetN (d : Dict) (k : String) : JVal :=
  jgetD d k .null

/-- Python `k in d`. -/
def hasKey (d : Dict) (k : String) : Bool :=
  (jget? d k).isSome

/-- Python `d[k] = v`: update in place if the key exists, else append. -/
def setk (d : Dict) (k : String) (v : JVal) : Dict :=
  if hasKey d k then d.map (fun kv => if kv.1 == k then (k, v) else kv)
  else d ++ [(k, v)]

/-- Python truthiness (`bool(x)`) on the values the module can see. -/
def JVal.truthy : JVal → Bool
  | .null => false
  | .bool b => b
  | .num n => n != 0
  | .str s => !s.isEmpty
  | .arr xs => !xs.isEmpty
  | .obj kvs => !kvs.isEmpty

/-- Python `x == s` for a string literal `s`: true only for equal `str`. -/
def JVal.eqStr : JVal → String → Bool
  | .str t, s => t == s
  | _, _ => false

/-! ### Python string helpers

`str.split(sep)`, `str.strip()`, `str.lstrip(chars)`, `str.rstrip(chars)`
reimplemented character-wise so that the fence-extraction code of both
clients can be stated and proved exactly.
-/

/-- Cons a char onto the head element of a split result. -/
def consHead (a : Char) : List (List Char) → List (List Char)
  | [] => [[a]]
  | h :: t => (a :: h) :: t

/-- Python `str.split(sep)` for a non-empty separator `c0 :: cs`:
leftmost, non-overlapping matches. -/
def splitNE (c0 : Char) (cs : List Char) : List Char → List (List Char)
  | [] => [[]]
  | a :: rest =>
    if a = c0 ∧ cs.isPrefixOf rest then
      [] :: splitNE c0 cs (rest.drop cs.length)
    else
      consHead a (splitNE c0 cs rest)
termination_by l => l.length
decreasing_by
  · simp only [List.length_cons, List.length_drop]
    omega
  · simp

/-- Python `str.split(sep)` (the module never calls it with `sep = ""`). -/
def pySplit (sep s : String) : List String :=
  match sep.data with
  | [] => [s]
  | c :: cs => (splitNE c cs s.data).map String.mk

/-- Does `sep` occur as a contiguous subsequence of `l`? -/
def seqOccurs (sep : List Char) : List Char → Bool
  | [] => sep.isEmpty
  | a :: rest => sep.isPrefixOf (a :: rest) || seqOccurs sep rest

/-- Does some non-empty suffix of `body`, extended by `sep`, start with
`sep`?  (Detects a separator match straddling the `body`/`sep` boundary
of `body ++ sep`.) -/
def straddles (sep : List Char) : List Char → Bool
  | [] => false
  | a :: rest => sep.isPrefixOf ((a :: rest) ++ sep) || straddles sep rest

/-- Python `str.strip()` on the character list. -/
def pyStripL (l : List Char) : List Char :=
  ((l.dropWhile Char.isWhitespace).reverse.dropWhile Char.isWhitespace).reverse

/-- Python `str.lstrip(chars)` on the character list. -/
def pyLstripL (cs : List Char) (l : List Char) : List Char :=
  l.dropWhile (fun c => cs.contains c)

/-- Python `str.rstrip(chars)` on the character list. -/
def pyRstripL (cs : List Char) (l : List Char) : List Char :=
  (l.reverse.dropWhile (fun c => cs.contains c)).reverse

/-! ### Fence extraction (both clients) -/

def fenceOpen : String := "```json\n"
def fenceClose : String := "\n```"

/-- Diagnostic client, line 155:
`result_str.split('```json\n')[-1].split('\n```')[0]`. -/
def extractFencedDiag (s : String) : String :=
  (pySplit fenceClose ((pySplit fenceOpen s).getLastD "")).headD ""

/-- The backtick character (code point 96). -/
def tick : Char := Char.ofNat 96

/-- The character set of the Python string `'```json'` as passed to
`str.lstrip` (which strips a set of characters, not a literal). -/
def tickJsonChars : List Char := [tick, 'j', 's', 'o', 'n']

/-- Quality client, line 186:
`response.text.strip().lstrip('```json').rstrip('```').strip()`. -/
def extractFencedQual (s : String) : String :=
  String.mk (pyStripL (pyRstripL [tick] (pyLstripL tickJsonChars (pyStripL s.data))))

/-! ### Diagnostic client (`MedicalLLMService._analyze_diagnosis_and_match`) -/

/-- The error dict built by the diagnostic client's `except` handler
(line 166).  The embedded message text is not part of any claim. -/
def errDiag (e : String) : Dict :=
  [("error", .str ("Failed to get diagnostic analysis: " ++ e))]

/-- The error dict built by the quality client's `except` handler
(line 191). -/
def errQual (e : String) : Dict :=
  [("error", .str ("Failed to get quality assessment: " ++ e))]

/-- Line 154: `result.get('output')[0]['choices'][0]['tokens'][0]`.
Any shape mismatch raises (`TypeError`/`IndexError`/`KeyError`, and
`AttributeError` from the subsequent `.split` when the token is not a
string); all are caught by the same handler, so they are folded into one
`.error`. -/
def extractTokenStr (result : Dict) : Except String String :=
  match jget? result "output" with
  | some (.arr (.obj o0 :: _)) =>
    match jget? o0 "choices" with
    | some (.arr (.obj c0 :: _)) =>
      match jget? c0 "tokens" with
      | some (.arr (.str t0 :: _)) => .ok t0
      | _ => .error "invalid output structure"
    | _ => .error "invalid output structure"
  | _ => .error "invalid output structure"

/-- Outcome of the polling loop (lines 147-162). -/
inductive PollResult where
  | ok (v : JVal)      -- `return json.loads(json_part)`: any parsed JSON value
  | exc (msg : String) -- an exception raised inside the loop (caught later)
  | hang               -- supplied responses exhausted while still transient

/-- The `status == 'COMPLETED'` branch: extract the token string, cut out
the fenced part, `json.loads` it.  `loads` models `json.loads`: `none` is
a `json.JSONDecodeError`, `some v` the parsed JSON value — any value, not
necessarily an object (the source returns it as is). -/
def completedStep (loads : String → Option JVal) (result : Dict) : PollResult :=
  match extractTokenStr result with
  | .error e => .exc e
  | .ok s =>
    match loads (extractFencedDiag s) with
    | some v => .ok v
    | none => .exc "json.decoder.JSONDecodeError"

/-- The `while True` polling loop over a supplied sequence of status
responses.  Each element is `requests.get(...).json()` (`Except.error` if
that call raised).  Returns (number of GET requests issued, total seconds
slept, outcome). -/
def pollRun (loads : String → Option JVal) : List (Except String Dict) → Nat × Nat × PollResult
  | [] => (0, 0, .hang)
  | .error e :: _ => (1, 0, .exc e)
  | .ok result :: rs =>
    if (jgetN result "status").eqStr "COMPLETED" then
      (1, 0, completedStep loads result)
    else if (jgetN result "status").eqStr "FAILED" then
      (1, 0, .exc "Job failed")
    else if (jgetN result "status").eqStr "IN_QUEUE" || (jgetN result "status").eqStr "IN_PROGRESS" then
      -- time.sleep(2), then poll again
      match pollRun loads rs with
      | (n, slp, r) => (n + 1, slp + 2, r)
    else
      (1, 0, .exc "Unknown status")

/-- External behaviour visible to one diagnostic-client call. -/
structure DiagEnv where
  /-- Reading `app/services/MedgemmaPromptV5.txt` (lines 102-103).  This
  happens BEFORE the `try` block: `.error` is an uncaught exception. -/
  promptRead : Except String String
  /-- `requests.post(...).json()` of the job submission (lines 139-140). -/
  submit : Except String Dict
  /-- Successive status-endpoint responses. -/
  polls : List (Except String Dict)
  /-- `json.loads` (external library): `none` = `JSONDecodeError`,
  `some v` = the parsed JSON value, not necessarily an object. -/
  loads : String → Option JVal

/-- `MedicalLLMService._analyze_diagnosis_and_match` (lines 101-166).
`none` models divergence of the unbounded polling loop;
`some (.error e)` an exception escaping the function;
`some (.ok v)` a normal return — `v` is whatever `json.loads` produced,
an `{"error": ...}` dict from the handler, or any JSON value. -/
def analyzeDiagnosisAndMatch (env : DiagEnv) : Option (Except String JVal) :=
  match env.promptRead with
  | .error e => some (.error e)
  | .ok _ =>
    match env.submit with
    | .error e => some (.ok (.obj (errDiag e)))
    | .ok resp =>
      match jget? resp "id" with
      | none => some (.ok (.obj (errDiag "KeyError: id")))
      | some _ =>
        match (pollRun env.loads env.polls).2.2 with
        | .hang => none
        | .exc e => some (.ok (.obj (errDiag e)))
        | .ok v => some (.ok v)

/-! ### Quality client (`MedicalLLMService._assess_image_quality`) -/

/-- External behaviour visible to one quality-client call. -/
structure QualEnv where
  /-- Reading `app/services/SystemPromptV8.txt` (lines 169-170), again
  BEFORE the `try` block: `.error` is an uncaught exception. -/
  promptRead : Except String String
  /-- `PIL.Image.open` per local path (line 177), inside the `try`. -/
  imageOpen : String → Except String Unit
  /-- `self.quality_model.generate_content(content).text` (line 183). -/
  respText : Except String String
  /-- `json.loads`: `none` = `JSONDecodeError`, `some v` = any parsed
  JSON value. -/
  loads : String → Option JVal

/-- `MedicalLLMService._assess_image_quality` (lines 168-191).  The
normal return is whatever `json.loads` produced — not necessarily an
object — or the handler's error dict. -/
def assessImageQuality (env : QualEnv) (local_image_paths : List String) : Except String JVal :=
  match env.promptRead with
  | .error e => .error e
  | .ok _ =>
    match local_image_paths.findSome?
        (fun p => match env.imageOpen p with | .error e => some e | .ok _ => none) with
    | some e => .ok (.obj (errQual e))
    | none =>
      match env.respText with
      | .error e => .ok (.obj (errQual e))
      | .ok text =>
        match env.loads (extractFencedQual text) with
        | some v => .ok v
        | none => .ok (.obj (errQual "json.decoder.JSONDecodeError"))

/-! ### Locator parsing (`_parse_image_paths`, lines 45-74) -/

/-- The Python value passed as `image_paths_str`. -/
inductive PyVal where
  | str (s : String)
  | list (xs : List String)
  | other (reprStr : String)   -- any other value; `str()` of it
deriving DecidableEq

/-- Outcome of `ast.literal_eval` / `json.loads` on a locator string:
a list of locator strings, some non-list value, or the parse exception
(`ValueError`/`SyntaxError` resp. `JSONDecodeError`). -/
inductive EvalOutcome where
  | listVal (xs : List String)
  | nonList
  | raises
deriving DecidableEq

/-- The two external string parsers used by `_parse_image_paths`. -/
structure StrParseEnv where
  literalEval : String → EvalOutcome
  jsonLoads : String → EvalOutcome

/-- `_parse_image_paths` (lines 45-74).  `json.loads` is attempted only
when `ast.literal_eval` raises; any non-list parse falls back to treating
the whole string as a single URL. -/
def parseImagePaths (penv : StrParseEnv) : PyVal → List String
  | .str s =>
    match penv.literalEval s with
    | .listVal xs => xs
    | .nonList => [s]
    | .raises =>
      match penv.jsonLoads s with
      | .listVal xs => xs
      | _ => [s]
  | .list xs => xs
  | .other r => [r]

/-! ### Image download (`_download_image_to_tempfile`, lines 27-43) -/

/-- One download attempt.  `failMid` is a `RequestException` raised while
streaming chunks: the `NamedTemporaryFile(delete=False)` was already
created, the handler returns `None`, and the file's name is lost. -/
inductive DlOutcome where
  | ok (tempPath : String)
  | failEarly
  | failMid (tempPath : String)
deriving DecidableEq

/-- The download loop of `analyze_scan` (lines 206-214): returns
(`local_image_paths`, `failed_downloads`, temp files created on disk). -/
def downloadAll (download : String → DlOutcome) : List String → List String × List String × List String
  | [] => ([], [], [])
  | p :: ps =>
    let rest := downloadAll download ps
    match download p with
    | .ok t => (t :: rest.1, rest.2.1, t :: rest.2.2)
    | .failEarly => (rest.1, p :: rest.2.1, rest.2.2)
    | .failMid t => (rest.1, p :: rest.2.1, t :: rest.2.2)

/-- The `finally` block (lines 239-242): for each path,
`if os.path.exists(p): os.remove(p)` against a filesystem modelled as the
list of existing files. -/
def removeFiles (fs : List String) : List String → List String
  | [] => fs
  | p :: ps => removeFiles (if fs.contains p then fs.erase p else fs) ps

/-! ### Orchestrator (`MedicalLLMService.analyze_scan`, lines 193-271) -/

/-- External behaviour visible to one `analyze_scan` call.  The two
clients appear as the functions of the arguments the orchestrator passes
them; `.error` is an exception re-raised by `future.result()`, and a
normal return is any Python value the client produced — `json.loads` can
yield a non-dict, which the client returns unchanged. -/
structure ScanEnv where
  penv : StrParseEnv
  download : String → DlOutcome
  diag : List String → Dict → Except String JVal
  qual : List String → Dict → Except String JVal

/-- How many times each remote client was invoked during one call. -/
structure ScanCalls where
  diagCalls : Nat
  qualCalls : Nat
deriving DecidableEq, Repr

/-- Lines 197-203. -/
def noImagesReport : Dict :=
  [("status", .str "REJECTED"),
   ("reason", .str "No valid image paths provided."),
   ("diagnosis_error", .str "No images to analyze."),
   ("quality_error", .str "No images to analyze.")]

/-- Lines 216-224. -/
def downloadsFailedReport (failed_downloads : List String) : Dict :=
  [("status", .str "REJECTED"),
   ("reason", .str "Failed to download any images from the provided URLs."),
   ("diagnosis_error", .str "All image downloads failed."),
   ("quality_error", .str "All image downloads failed."),
   ("failed_downloads", .arr (failed_downloads.map .str))]

/-- Lines 245-251: the combined-error report. -/
def errorReport (diagnosis_result quality_result : Dict) : Dict :=
  [("status", .str "REJECTED"),
   ("reason", .str "Failed to complete analysis due to API errors."),
   ("diagnosis_error", jgetN diagnosis_result "error"),
   ("quality_error", jgetN quality_result "error")]

/-- Lines 253-264: `final_report` as first constructed, with the
intermediate status `"PENDING"`. -/
def pendingReport (diagnosis_result quality_result order_details : Dict) : Dict :=
  [("scan_name", jgetN order_details "scan_name"),
   ("age", jgetN order_details "age"),
   ("sex", jgetN order_details "sex"),
   ("modality", jgetD order_details "modality" (.str "Unknown")),
   ("quality", jgetD quality_result "image_quality" (.str "rejected")),
   ("scan_match", jgetD quality_result "scan_match" (.bool false)),
   ("modality_match", jgetD quality_result "modality_match" (.bool false)),
   ("reason_of_rejection", jgetD quality_result "reason_of_rejection" (.str "null")),
   ("diagnosis", jgetD diagnosis_result "diagnosis" (.str "No diagnosis could be generated.")),
   ("status", .str "PENDING")]

/-- Lines 253-271: build `final_report` (status `"PENDING"`), then
overwrite the status from `(quality, scan_match, modality_match)`
(lines 266-269). -/
def combineResults (diagnosis_result quality_result order_details : Dict) : Dict :=
  let final_report := pendingReport diagnosis_result quality_result order_details
  if !(jgetN final_report "scan_match").truthy || !(jgetN final_report "modality_match").truthy
      || (jgetN final_report "quality").eqStr "rejected" then
    setk final_report "status" (.str "REJECTED")
  else
    setk final_report "status" (.str "ACCEPTED")

/-- Python `"error" in x` (line 245): key test on a dict, membership on a
list, substring test on a string, `TypeError` on the rest. -/
def pyContains (k : String) : JVal → Except String Bool
  | .obj kvs => .ok (hasKey kvs k)
  | .arr xs => .ok (xs.any (fun x => x.eqStr k))
  | .str s => .ok (seqOccurs k.data s.data)
  | .null => .error "TypeError: argument of type 'NoneType' is not iterable"
  | .bool _ => .error "TypeError: argument of type 'bool' is not iterable"
  | .num _ => .error "TypeError: argument of type 'int' is not iterable"

/-- Lines 246-251 applied to the raw client results: the `.get("error")`
calls raise `AttributeError` when a result is not a dict
(`diagnosis_result.get` is evaluated first, per dict-literal order). -/
def errorReportJ (dv qv : JVal) : Except String Dict :=
  match dv with
  | .obj d =>
    match qv with
    | .obj q => .ok (errorReport d q)
    | _ => .error "AttributeError: object has no attribute get"
  | _ => .error "AttributeError: object has no attribute get"

/-- Lines 253-271 applied to the raw client results: the four
`quality_result.get` calls (evaluated first, lines 258-261) and then
`diagnosis_result.get` (line 262) raise `AttributeError` when the
respective result is not a dict; otherwise the merge of
`combineResults`. -/
def combineResultsJ (dv qv : JVal) (order_details : Dict) : Except String Dict :=
  match qv with
  | .obj q =>
    match dv with
    | .obj d => .ok (combineResults d q order_details)
    | _ => .error "AttributeError: object has no attribute get"
  | _ => .error "AttributeError: object has no attribute get"

/-- Lines 235-236 and 244-271: join both futures (re-raising an exception
from either, diagnosis first), then the short-circuiting
`"error" in diagnosis_result or "error" in quality_result` test and the
report construction, each of which can itself raise on a non-dict
result. -/
def mergeStep (dv qv : Except String JVal) (order_details : Dict) : Except String Dict :=
  match dv with
  | .error e => .error e
  | .ok dv =>
    match qv with
    | .error e => .error e
    | .ok qv =>
      match pyContains "error" dv with
      | .error e => .error e
      | .ok bd =>
        if bd then errorReportJ dv qv
        else
          match pyContains "error" qv with
          | .error e => .error e
          | .ok bq =>
            if bq then errorReportJ dv qv
            else combineResultsJ dv qv order_details

/-- `MedicalLLMService.analyze_scan` (lines 193-271) over an explicit
filesystem `fs0` (list of existing files).  Returns
(result, client-call counts, final filesystem).  `Except.error` is an
exception escaping to the caller. -/
def analyze_scan (env : ScanEnv) (image_paths_str : PyVal) (order_details : Dict)
    (fs0 : List String) : Except String Dict × ScanCalls × List String :=
  let image_paths := parseImagePaths env.penv image_paths_str
  if image_paths.isEmpty then
    (.ok noImagesReport, ⟨0, 0⟩, fs0)
  else
    let dl := downloadAll env.download image_paths
    let fs1 := dl.2.2 ++ fs0
    if dl.1.isEmpty then
      (.ok (downloadsFailedReport dl.2.1), ⟨0, 0⟩, fs1)
    else
      -- both futures are submitted and joined; cleanup (`finally`)
      -- happens before any of the returns below and also before an
      -- exception from `future.result()` or from the merge propagates
      let diagnosis_result := env.diag image_paths order_details
      let quality_result := env.qual dl.1 order_details
      let fs2 := removeFiles fs1 dl.1
      (mergeStep diagnosis_result quality_result order_details, ⟨1, 1⟩, fs2)

/-- The decision policy as a function of exactly the merged triple
(quality, scan_match, modality_match) — the invariant form of §3. -/
def statusRule (quality scan_match modality_match : JVal) : JVal :=
  if !scan_match.truthy || !modality_match.truthy || quality.eqStr "rejected" then
    .str "REJECTED"
  else
    .str "ACCEPTED"

/-! ## Basic dictionary lemmas -/

theorem jget?_cons_eq {k k' : String} {v : JVal} {d : Dict} (h : (k' == k) = true) :
    jget? ((k', v) :: d) k = some v := by
  simp [jget?, List.find?, h]

theorem jget?_cons_ne {k k' : String} {v : JVal} {d : Dict} (h : (k' == k) = false) :
    jget? ((k', v) :: d) k = jget? d k := by
  simp [jget?, List.find?, h]

theorem jgetN_of_hasKey_false {d : Dict} {k : String} (h : hasKey d k = false) :
    jgetN d k = .null := by
  cases hj : jget? d k with
  | none => simp [jgetN, jgetD, hj]
  | some v => rw [hasKey, hj] at h; simp at h

theorem hasKey_of_jgetN_str {d : Dict} {k s : String} (h : jgetN d k = .str s) :
    hasKey d k = true := by
  by_contra hc
  rw [Bool.not_eq_true] at hc
  rw [jgetN_of_hasKey_false hc] at h
  exact JVal.noConfusion h

/-! ## Lemmas about the Python split model -/

theorem splitNE_cons (c0 : Char) (cs : List Char) (a : Char) (rest : List Char) :
    splitNE c0 cs (a :: rest) =
      if a = c0 ∧ cs.isPrefixOf rest then [] :: splitNE c0 cs (rest.drop cs.length)
      else consHead a (splitNE c0 cs rest) := by
  rw [splitNE]

theorem isPrefixOf_cons_false {c0 a : Char} {cs rest : List Char}
    (h : (c0 :: cs).isPrefixOf (a :: rest) = false) : ¬(a = c0 ∧ cs.isPrefixOf rest) := by
  rintro ⟨ha, hp⟩
  subst ha
  simp [List.isPrefixOf, hp] at h

/-- A separator that never occurs leaves the string in one piece. -/
theorem splitNE_no_occurs (c0 : Char) (cs : List Char) :
    ∀ l : List Char, seqOccurs (c0 :: cs) l = false → splitNE c0 cs l = [l]
  | [], _ => by simp [splitNE]
  | a :: rest, h => by
    rw [seqOccurs] at h
    rcases Bool.or_eq_false_iff.mp h with ⟨h1, h2⟩
    rw [splitNE_cons, if_neg (isPrefixOf_cons_false h1),
      splitNE_no_occurs c0 cs rest h2]
    rfl

/-- A split at a leading separator. -/
theorem splitNE_sep_first (c0 : Char) (cs rest : List Char) :
    splitNE c0 cs (c0 :: (cs ++ rest)) = [] :: splitNE c0 cs rest := by
  rw [splitNE_cons,
    if_pos ⟨rfl, List.isPrefixOf_iff_prefix.mpr (List.prefix_append cs rest)⟩,
    List.drop_left]

/-- When the separator occurs exactly once, as the suffix (no occurrence
inside `body`, none straddling the boundary), the split is `[body, []]`. -/
theorem splitNE_body_sep (c0 : Char) (cs : List Char) :
    ∀ body : List Char, straddles (c0 :: cs) body = false →
      splitNE c0 cs (body ++ c0 :: cs) = [body, []]
  | [], _ => by
    have h0 := splitNE_sep_first c0 cs []
    rw [List.append_nil] at h0
    rw [List.nil_append, h0]
    simp [splitNE]
  | a :: rest, h => by
    rw [straddles] at h
    rcases Bool.or_eq_false_iff.mp h with ⟨h1, h2⟩
    rw [List.cons_append] at h1
    rw [List.cons_append, splitNE_cons, if_neg (isPrefixOf_cons_false h1),
      splitNE_body_sep c0 cs rest h2]
    rfl

/-! ## Fence-extraction roundtrips -/

/-- The tail of `fenceOpen.data` after its first character. -/
def openTail : List Char := [tick, tick, 'j', 's', 'o', 'n', '\n']

/-- The tail of `fenceClose.data` after its first character. -/
def closeTail : List Char := [tick, tick, tick]

theorem fenceOpen_data : fenceOpen.data = tick :: openTail := by
  decide

theorem fenceClose_data : fenceClose.data = '\n' :: closeTail := by
  decide

/-- The diagnostic client's fence extraction recovers exactly the fenced
body, provided the opening fence does not reoccur and no stray close-fence
match straddles the body's end. -/
theorem extractFencedDiag_roundtrip (body : String)
    (h1 : seqOccurs fenceOpen.data (body.data ++ fenceClose.data) = false)
    (h2 : straddles fenceClose.data body.data = false) :
    extractFencedDiag (fenceOpen ++ body ++ fenceClose) = body := by
  rw [fenceOpen_data] at h1
  rw [fenceClose_data] at h2
  have key1 : splitNE tick openTail (fenceOpen.data ++ (body.data ++ fenceClose.data)) =
      [] :: splitNE tick openTail (body.data ++ fenceClose.data) := by
    rw [show fenceOpen.data ++ (body.data ++ fenceClose.data) =
      tick :: (openTail ++ (body.data ++ fenceClose.data)) from by rw [fenceOpen_data]; rfl]
    exact splitNE_sep_first tick openTail (body.data ++ fenceClose.data)
  have key2 : splitNE tick openTail (body.data ++ fenceClose.data) =
      [body.data ++ fenceClose.data] :=
    splitNE_no_occurs tick openTail (body.data ++ fenceClose.data) h1
  have key3 : splitNE '\n' closeTail (body.data ++ fenceClose.data) = [body.data, []] := by
    rw [show body.data ++ fenceClose.data = body.data ++ '\n' :: closeTail from by
      rw [fenceClose_data]]
    exact splitNE_body_sep '\n' closeTail body.data h2
  have p1 : pySplit fenceOpen (fenceOpen ++ body ++ fenceClose) =
      ["", String.mk (body.data ++ fenceClose.data)] := by
    show (splitNE tick openTail (fenceOpen ++ body ++ fenceClose).data).map String.mk = _
    rw [show (fenceOpen ++ body ++ fenceClose).data =
      fenceOpen.data ++ (body.data ++ fenceClose.data) from by
        rw [String.data_append, String.data_append, List.append_assoc]]
    rw [key1, key2]
    rfl
  have p3 : pySplit fenceClose (String.mk (body.data ++ fenceClose.data)) =
      [String.mk body.data, ""] := by
    show (splitNE '\n' closeTail (String.mk (body.data ++ fenceClose.data)).data).map String.mk = _
    rw [show (String.mk (body.data ++ fenceClose.data)).data = body.data ++ fenceClose.data from rfl]
    rw [key3]
    rfl
  unfold extractFencedDiag
  rw [p1]
  rw [show (["", String.mk (body.data ++ fenceClose.data)] : List String).getLastD "" =
    String.mk (body.data ++ fenceClose.data) from rfl]
  rw [p3]
  rfl

/-- `dropWhile` drops a concrete satisfying prefix and stops at the first
failing character. -/
theorem dropWhile_concrete {p : Char → Bool} (pre : List Char) (a : Char) (suf : List Char)
    (hpre : pre.all p = true) (ha : p a = false) :
    (pre ++ a :: suf).dropWhile p = a :: suf := by
  induction pre with
  | nil => exact List.dropWhile_cons_of_neg (by simp [ha])
  | cons x xs ih =>
    rw [List.all_cons, Bool.and_eq_true] at hpre
    rw [List.cons_append, List.dropWhile_cons_of_pos hpre.1, ih hpre.2]

/-- `dropWhile` stops immediately at a failing head character. -/
theorem dropWhile_stop {p : Char → Bool} (a : Char) (suf : List Char) (ha : p a = false) :
    (a :: suf).dropWhile p = a :: suf :=
  List.dropWhile_cons_of_neg (by simp [ha])

/-- The quality client's strip/lstrip/rstrip pipeline recovers exactly the
fenced body, provided the body is non-empty and neither starts nor ends
with whitespace. -/
theorem extractFencedQual_roundtrip (body : String)
    (hne : body.data ≠ [])
    (hhd : ∀ c, body.data.head? = some c → c.isWhitespace = false)
    (hlast : ∀ c, body.data.getLast? = some c → c.isWhitespace = false) :
    extractFencedQual (fenceOpen ++ body ++ fenceClose) = body := by
  obtain ⟨b, bt, hB⟩ : ∃ b bt, body.data = b :: bt := by
    cases hB : body.data with
    | nil => exact absurd hB hne
    | cons b bt => exact ⟨b, bt, rfl⟩
  have hb : b.isWhitespace = false := hhd b (by rw [hB]; rfl)
  obtain ⟨c, cr, hBr⟩ : ∃ c cr, body.data.reverse = c :: cr := by
    cases hBr : body.data.reverse with
    | nil => rw [List.reverse_eq_nil_iff] at hBr; exact absurd hBr hne
    | cons c cr => exact ⟨c, cr, rfl⟩
  have hc : c.isWhitespace = false := by
    apply hlast
    rw [← List.head?_reverse, hBr]; rfl
  have hdata : (fenceOpen ++ body ++ fenceClose).data
      = fenceOpen.data ++ (body.data ++ fenceClose.data) := by
    rw [String.data_append, String.data_append, List.append_assoc]
  have h1 : pyStripL (fenceOpen.data ++ (body.data ++ fenceClose.data))
      = fenceOpen.data ++ (body.data ++ fenceClose.data) := by
    unfold pyStripL
    have el : fenceOpen.data ++ (body.data ++ fenceClose.data)
        = tick :: (openTail ++ (body.data ++ fenceClose.data)) := by
      rw [fenceOpen_data]; rfl
    have er : (tick :: (openTail ++ (body.data ++ fenceClose.data))).reverse
        = tick :: ([tick, tick, '\n']
            ++ (body.data.reverse ++ ['\n', 'n', 'o', 's', 'j', tick, tick, tick])) := by
      rw [fenceClose_data]
      simp [openTail, closeTail, List.reverse_append, List.append_assoc]
    rw [el, dropWhile_stop tick _ (by decide), er,
      dropWhile_stop tick _ (by decide), ← er, List.reverse_reverse]
  have h2 : pyLstripL tickJsonChars (fenceOpen.data ++ (body.data ++ fenceClose.data))
      = '\n' :: (body.data ++ fenceClose.data) := by
    unfold pyLstripL
    have e : fenceOpen.data ++ (body.data ++ fenceClose.data)
        = [tick, tick, tick, 'j', 's', 'o', 'n'] ++ '\n' :: (body.data ++ fenceClose.data) := by
      rw [fenceOpen_data]; rfl
    rw [e]
    exact dropWhile_concrete _ '\n' _ (by decide) (by decide)
  have h3 : pyRstripL [tick] ('\n' :: (body.data ++ fenceClose.data))
      = '\n' :: (body.data ++ ['\n']) := by
    unfold pyRstripL
    have e : ('\n' :: (body.data ++ fenceClose.data)).reverse
        = [tick, tick, tick] ++ '\n' :: (body.data.reverse ++ ['\n']) := by
      rw [fenceClose_data]
      simp [closeTail, List.reverse_append, List.append_assoc]
    rw [e, dropWhile_concrete _ '\n' _ (by decide) (by decide)]
    simp [List.reverse_append]
  have h4 : pyStripL ('\n' :: (body.data ++ ['\n'])) = body.data := by
    unfold pyStripL
    have e4l : ('\n' :: (body.data ++ ['\n'])).dropWhile Char.isWhitespace
        = body.data ++ ['\n'] := by
      rw [hB]
      have e : ('\n' :: ((b :: bt) ++ ['\n'])) = ['\n'] ++ b :: (bt ++ ['\n']) := rfl
      rw [e, dropWhile_concrete ['\n'] b _ (by decide) hb]
      rfl
    rw [e4l]
    have e4r : (body.data ++ ['\n']).reverse.dropWhile Char.isWhitespace
        = body.data.reverse := by
      have e : (body.data ++ ['\n']).reverse = ['\n'] ++ body.data.reverse := by simp
      rw [e, hBr]
      exact dropWhile_concrete ['\n'] c cr (by decide) hc
    rw [e4r, List.reverse_reverse]
  unfold extractFencedQual
  rw [hdata, h1, h2, h3, h4]

/-! ## Field lemmas for `combineResults` -/

theorem combine_quality (d q o : Dict) :
    jgetN (combineResults d q o) "quality" = jgetD q "image_quality" (.str "rejected") := by
  simp only [combineResults]
  split <;>
    simp [pendingReport, setk, hasKey, jgetN, jgetD, jget?, List.find?]

theorem combine_scan_match (d q o : Dict) :
    jgetN (combineResults d q o) "scan_match" = jgetD q "scan_match" (.bool false) := by
  simp only [combineResults]
  split <;>
    simp [pendingReport, setk, hasKey, jgetN, jgetD, jget?, List.find?]

theorem combine_modality_match (d q o : Dict) :
    jgetN (combineResults d q o) "modality_match" = jgetD q "modality_match" (.bool false) := by
  simp only [combineResults]
  split <;>
    simp [pendingReport, setk, hasKey, jgetN, jgetD, jget?, List.find?]

theorem combine_status (d q o : Dict) :
    jgetN (combineResults d q o) "status" =
      statusRule (jgetD q "image_quality" (.str "rejected"))
        (jgetD q "scan_match" (.bool false)) (jgetD q "modality_match" (.bool false)) := by
  simp only [combineResults, statusRule]
  split
  case isTrue h =>
    rw [if_pos ?_]
    · simp [pendingReport, setk, hasKey, jgetN, jgetD, jget?, List.find?]
    · simpa [pendingReport, jgetN, jgetD, jget?, List.find?] using h
  case isFalse h =>
    rw [if_neg ?_]
    · simp [pendingReport, setk, hasKey, jgetN, jgetD, jget?, List.find?]
    · simpa [pendingReport, jgetN, jgetD, jget?, List.find?] using h

/-! ## `JVal.eqStr` and poll-loop lemmas -/

theorem eqStr_eq {v : JVal} {s : String} (h : v.eqStr s = true) : v = .str s := by
  cases v <;> simp [JVal.eqStr] at h
  rw [h]

theorem pollRun_nil (loads : String → Option JVal) : pollRun loads [] = (0, 0, .hang) := rfl

theorem pollRun_err (loads : String → Option JVal) (e : String) (rs : List (Except String Dict)) :
    pollRun loads (.error e :: rs) = (1, 0, .exc e) := rfl

theorem pollRun_ok_cons (loads : String → Option JVal) (result : Dict)
    (rs : List (Except String Dict)) :
    pollRun loads (.ok result :: rs) =
      if (jgetN result "status").eqStr "COMPLETED" then
        (1, 0, completedStep loads result)
      else if (jgetN result "status").eqStr "FAILED" then
        (1, 0, .exc "Job failed")
      else if (jgetN result "status").eqStr "IN_QUEUE"
          || (jgetN result "status").eqStr "IN_PROGRESS" then
        match pollRun loads rs with
        | (n, slp, r) => (n + 1, slp + 2, r)
      else
        (1, 0, .exc "Unknown status") := by
  rw [pollRun]

/-- A poll response whose status keeps the loop going. -/
def statusIsTransient (result : Dict) : Bool :=
  (jgetN result "status").eqStr "IN_QUEUE" || (jgetN result "status").eqStr "IN_PROGRESS"

/-! ## Path lemma for `analyze_scan` -/

/-- When both raw client results are JSON objects, the merge step cannot
raise and reduces to the single error-key test of the narrow reading. -/
theorem mergeStep_objs (d q o : Dict) :
    mergeStep (.ok (.obj d)) (.ok (.obj q)) o =
      if hasKey d "error" || hasKey q "error" then .ok (errorReport d q)
      else .ok (combineResults d q o) := by
  show (if hasKey d "error" then errorReportJ (.obj d) (.obj q)
      else if hasKey q "error" then errorReportJ (.obj d) (.obj q)
      else combineResultsJ (.obj d) (.obj q) o) = _
  cases hkd : hasKey d "error" <;> cases hkq : hasKey q "error" <;> rfl

/-- The success path: non-empty parsed locators, at least one download
succeeded, neither client raised, and both results are dicts. -/
theorem analyze_scan_ok_ok (env : ScanEnv) (x : PyVal) (order : Dict) (fs0 : List String)
    (ps locs fls crtd : List String) (d q : Dict)
    (hps : parseImagePaths env.penv x = ps) (hpne : ps ≠ [])
    (hdl : downloadAll env.download ps = (locs, fls, crtd)) (hlne : locs ≠ [])
    (hd : env.diag ps order = .ok (.obj d)) (hq : env.qual locs order = .ok (.obj q)) :
    analyze_scan env x order fs0 =
      (if hasKey d "error" || hasKey q "error" then .ok (errorReport d q)
       else .ok (combineResults d q order), ⟨1, 1⟩, removeFiles (crtd ++ fs0) locs) := by
  simp only [analyze_scan]
  rw [hps, hdl]
  rw [if_neg (by simp [hpne]), if_neg (by simp [hlne])]
  rw [hd, hq, mergeStep_objs]

/-! ## C6: string-encoded locator lists behave like literal lists -/

/-- C6: for every list of locator strings `L` and every string `s` that
`ast.literal_eval` decodes to `L` (in particular the string encoding
`'["a","b"]'` of `["a","b"]`), `analyze_scan` behaves identically on the
string and on the literal list: the locator-parsing step maps both to the
same list. -/
theorem c6_encoded_list_equals_literal (env : ScanEnv) (order : Dict) (fs0 : List String)
    (s : String) (L : List String) (h : env.penv.literalEval s = .listVal L) :
    parseImagePaths env.penv (.str s) = parseImagePaths env.penv (.list L) ∧
    analyze_scan env (.str s) order fs0 = analyze_scan env (.list L) order fs0 := by
  have hp : parseImagePaths env.penv (.str s) = parseImagePaths env.penv (.list L) := by
    simp only [parseImagePaths]
    rw [h]
  exact ⟨hp, by simp only [analyze_scan]; rw [hp]⟩

/-- Witness environment: a `literal_eval` behaviour that decodes the
string `'["a","b"]'` to `["a", "b"]`, as Python's does. -/
def penvC6 : StrParseEnv :=
  ⟨fun t => if t = "[\"a\",\"b\"]" then .listVal ["a", "b"] else .raises,
   fun _ => .raises⟩

def envC6 : ScanEnv :=
  ⟨penvC6, fun _ => .failEarly, fun _ _ => .ok (.obj []), fun _ _ => .ok (.obj [])⟩

theorem c6_witness :
    parseImagePaths envC6.penv (.str "[\"a\",\"b\"]") = parseImagePaths envC6.penv (.list ["a", "b"]) ∧
    analyze_scan envC6 (.str "[\"a\",\"b\"]") [] [] = analyze_scan envC6 (.list ["a", "b"]) [] [] :=
  c6_encoded_list_equals_literal envC6 [] [] "[\"a\",\"b\"]" ["a", "b"] (by decide)

/-! ## C8: the polling loop's transition structure -/

/-- C8: in the diagnostic client's polling loop, a status of `IN_QUEUE` or
`IN_PROGRESS` is always followed by another poll after a fixed 2-second
wait; `COMPLETED` terminates the loop with parse-and-return and `FAILED`
with an error; and any status outside the four known values is a fatal
error that is never followed by another poll. -/
theorem c8_poll_loop (loads : String → Option JVal) (result : Dict)
    (rs : List (Except String Dict)) :
    (statusIsTransient result = true →
      pollRun loads (.ok result :: rs) =
        ((pollRun loads rs).1 + 1, (pollRun loads rs).2.1 + 2, (pollRun loads rs).2.2)) ∧
    ((jgetN result "status").eqStr "COMPLETED" = true →
      pollRun loads (.ok result :: rs) = (1, 0, completedStep loads result)) ∧
    ((jgetN result "status").eqStr "FAILED" = true →
      pollRun loads (.ok result :: rs) = (1, 0, .exc "Job failed")) ∧
    ((jgetN result "status").eqStr "COMPLETED" = false →
     (jgetN result "status").eqStr "FAILED" = false →
     statusIsTransient result = false →
      pollRun loads (.ok result :: rs) = (1, 0, .exc "Unknown status")) := by
  refine ⟨?_, ?_, ?_, ?_⟩
  · intro ht
    simp only [statusIsTransient, Bool.or_eq_true] at ht
    rcases hpr : pollRun loads rs with ⟨n, slp, r⟩
    rcases ht with hq | hp
    · rw [pollRun_ok_cons, eqStr_eq hq, hpr]
      rfl
    · rw [pollRun_ok_cons, eqStr_eq hp, hpr]
      rfl
  · intro hcpl
    rw [pollRun_ok_cons, if_pos hcpl]
  · intro hfail
    rw [pollRun_ok_cons, eqStr_eq hfail]
    rfl
  · intro h1 h2 h3
    simp only [statusIsTransient] at h3
    rw [pollRun_ok_cons, if_neg (by simp [h1]), if_neg (by simp [h2]), if_neg (by simp [h3])]

/-- A concrete transient poll response. -/
def inQueueResp : Dict := [("status", .str "IN_QUEUE")]

/-- A trivially failing `json.loads` used by concrete environments that
never reach parsing. -/
def loadsNone : String → Option JVal := fun _ => none

theorem c8_witness :
    pollRun loadsNone [.ok inQueueResp] =
      ((pollRun loadsNone []).1 + 1, (pollRun loadsNone []).2.1 + 2,
        (pollRun loadsNone []).2.2) :=
  (c8_poll_loop loadsNone inQueueResp []).1 (by decide)

/-! ## Helper lemmas for the decision policy -/

theorem jgetD_eq_of_get {d : Dict} {k : String} {v dflt : JVal} (h : jget? d k = some v) :
    jgetD d k dflt = v := by
  simp [jgetD, h]

theorem jgetD_eq_dflt {d : Dict} {k : String} {dflt : JVal} (h : jget? d k = none) :
    jgetD d k dflt = dflt := by
  simp [jgetD, h]

theorem eqStr_false_of_ne {v : JVal} {s : String} (h : v ≠ .str s) : v.eqStr s = false := by
  by_contra hc
  rw [Bool.not_eq_false] at hc
  exact h (eqStr_eq hc)

theorem eqStr_false_iff_ne (v : JVal) (s : String) : v.eqStr s = false ↔ v ≠ .str s := by
  constructor
  · intro h hc
    rw [hc] at h
    simp [JVal.eqStr] at h
  · exact eqStr_false_of_ne

theorem statusRule_cases (a b c : JVal) :
    statusRule a b c = .str "REJECTED" ∨ statusRule a b c = .str "ACCEPTED" := by
  unfold statusRule
  split
  · exact Or.inl rfl
  · exact Or.inr rfl

theorem statusRule_accepted_iff (Q S M : JVal) :
    statusRule Q S M = .str "ACCEPTED" ↔
      (S.truthy = true ∧ M.truthy = true ∧ Q.eqStr "rejected" = false) := by
  unfold statusRule
  split
  case isTrue hcond =>
    constructor
    · intro hc
      injection hc with hs
      exact absurd hs (by decide)
    · rintro ⟨h1, h2, h3⟩
      rw [h1, h2, h3] at hcond
      simp at hcond
  case isFalse hcond =>
    have hcond' : (!S.truthy || !M.truthy || Q.eqStr "rejected") = false :=
      Bool.eq_false_iff.mpr hcond
    rw [Bool.or_eq_false_iff, Bool.or_eq_false_iff] at hcond'
    obtain ⟨⟨h1, h2⟩, h3⟩ := hcond'
    exact iff_of_true rfl ⟨by simpa using h1, by simpa using h2, h3⟩

/-! ## C9: the returned status is always ACCEPTED or REJECTED -/

/-- A successfully built combined-error report is REJECTED. -/
theorem errorReportJ_ok_status {dv qv : JVal} {r : Dict} (h : errorReportJ dv qv = .ok r) :
    jgetN r "status" = .str "REJECTED" := by
  cases dv with
  | obj d =>
    cases qv with
    | obj q =>
      simp only [errorReportJ, Except.ok.injEq] at h
      subst h
      rfl
    | null => exact Except.noConfusion h
    | bool b => exact Except.noConfusion h
    | num n => exact Except.noConfusion h
    | str s => exact Except.noConfusion h
    | arr xs => exact Except.noConfusion h
  | null => exact Except.noConfusion h
  | bool b => exact Except.noConfusion h
  | num n => exact Except.noConfusion h
  | str s => exact Except.noConfusion h
  | arr xs => exact Except.noConfusion h

/-- A successfully built merged report's status is decided. -/
theorem combineResultsJ_ok_status {dv qv : JVal} {o r : Dict}
    (h : combineResultsJ dv qv o = .ok r) :
    jgetN r "status" = .str "REJECTED" ∨ jgetN r "status" = .str "ACCEPTED" := by
  cases qv with
  | obj q =>
    cases dv with
    | obj d =>
      simp only [combineResultsJ, Except.ok.injEq] at h
      subst h
      rw [combine_status]
      rcases statusRule_cases (jgetD q "image_quality" (.str "rejected"))
          (jgetD q "scan_match" (.bool false)) (jgetD q "modality_match" (.bool false))
        with hs | hs <;> rw [hs]
      · exact Or.inl rfl
      · exact Or.inr rfl
    | null => exact Except.noConfusion h
    | bool b => exact Except.noConfusion h
    | num n => exact Except.noConfusion h
    | str s => exact Except.noConfusion h
    | arr xs => exact Except.noConfusion h
  | null => exact Except.noConfusion h
  | bool b => exact Except.noConfusion h
  | num n => exact Except.noConfusion h
  | str s => exact Except.noConfusion h
  | arr xs => exact Except.noConfusion h

/-- Every report the merge step returns (rather than raising) is one of
the two literal shapes, so its status is REJECTED or ACCEPTED. -/
theorem mergeStep_ok_status {dv qv : Except String JVal} {o r : Dict}
    (h : mergeStep dv qv o = .ok r) :
    jgetN r "status" = .str "REJECTED" ∨ jgetN r "status" = .str "ACCEPTED" := by
  unfold mergeStep at h
  split at h
  · exact Except.noConfusion h
  · split at h
    · exact Except.noConfusion h
    · split at h
      · exact Except.noConfusion h
      · split at h
        · exact Or.inl (errorReportJ_ok_status h)
        · split at h
          · exact Except.noConfusion h
          · split at h
            · exact Or.inl (errorReportJ_ok_status h)
            · exact combineResultsJ_ok_status h

/-- C9: every report returned by `analyze_scan` has status `"ACCEPTED"` or
`"REJECTED"`; the intermediate `"PENDING"` assigned during report
construction is never observable by the caller, on any path. -/
theorem c9_status_never_pending (env : ScanEnv) (x : PyVal) (order : Dict) (fs0 : List String)
    (r : Dict) (calls : ScanCalls) (fs1 : List String)
    (h : analyze_scan env x order fs0 = (.ok r, calls, fs1)) :
    (jgetN r "status" = .str "ACCEPTED" ∨ jgetN r "status" = .str "REJECTED") ∧
    jgetN r "status" ≠ .str "PENDING" := by
  have conclude : ∀ v : JVal, v = .str "ACCEPTED" ∨ v = .str "REJECTED" →
      (v = .str "ACCEPTED" ∨ v = .str "REJECTED") ∧ v ≠ .str "PENDING" := by
    rintro v (hv | hv)
    · exact ⟨Or.inl hv, by rw [hv]; intro hc; injection hc with hs; exact absurd hs (by decide)⟩
    · exact ⟨Or.inr hv, by rw [hv]; intro hc; injection hc with hs; exact absurd hs (by decide)⟩
  simp only [analyze_scan] at h
  split at h
  · simp only [Prod.mk.injEq, Except.ok.injEq] at h
    obtain ⟨h1, -⟩ := h
    subst h1
    exact conclude _ (Or.inr rfl)
  · split at h
    · simp only [Prod.mk.injEq, Except.ok.injEq] at h
      obtain ⟨h1, -⟩ := h
      subst h1
      exact conclude _ (Or.inr rfl)
    · simp only [Prod.mk.injEq] at h
      obtain ⟨h1, -⟩ := h
      rcases mergeStep_ok_status h1 with hs | hs
      · exact conclude _ (Or.inr hs)
      · exact conclude _ (Or.inl hs)

/-! Concrete environment for the success-path witnesses. -/

/-- A parse environment on which every locator string parses only as a
bare URL. -/
def penvRaises : StrParseEnv := ⟨fun _ => .raises, fun _ => .raises⟩

def dRes : Dict := [("diagnosis", .str "normal scan")]

def qRes : Dict :=
  [("image_quality", .str "optimal"), ("scan_match", .bool true), ("modality_match", .bool true)]

def envMain : ScanEnv :=
  ⟨penvRaises, fun _ => .ok "/tmp/img0.png",
   fun _ _ => .ok (.obj dRes), fun _ _ => .ok (.obj qRes)⟩

theorem c9_witness :
    (jgetN (combineResults dRes qRes []) "status" = .str "ACCEPTED" ∨
     jgetN (combineResults dRes qRes []) "status" = .str "REJECTED") ∧
    jgetN (combineResults dRes qRes []) "status" ≠ .str "PENDING" :=
  c9_status_never_pending envMain (.str "u") [] [] (combineResults dRes qRes []) ⟨1, 1⟩ [] rfl

/-! ## C1: the accept/reject decision -/

/-- C1: for every Order and every pair of successful (error-free) client
results (whose match flags are booleans when present, per the §3 data
model), `analyze_scan` returns a report whose status is ACCEPTED exactly
when the quality result's `scan_match` is true, `modality_match` is true,
and the merged quality is not `"rejected"`, and REJECTED otherwise;
moreover the status equals `statusRule` applied to exactly the merged
triple (quality, scan_match, modality_match), so it is never set
independently of them. -/
theorem c1_status_decision (env : ScanEnv) (x : PyVal) (order : Dict) (fs0 : List String)
    (ps locs fls crtd : List String) (d q : Dict)
    (hps : parseImagePaths env.penv x = ps) (hpne : ps ≠ [])
    (hdl : downloadAll env.download ps = (locs, fls, crtd)) (hlne : locs ≠ [])
    (hd : env.diag ps order = .ok (.obj d)) (hq : env.qual locs order = .ok (.obj q))
    (hde : hasKey d "error" = false) (hqe : hasKey q "error" = false)
    (hsm : ∀ v, jget? q "scan_match" = some v → ∃ b, v = .bool b)
    (hmm : ∀ v, jget? q "modality_match" = some v → ∃ b, v = .bool b) :
    ∃ r calls fs1, analyze_scan env x order fs0 = (.ok r, calls, fs1) ∧
      (jgetN r "status" = .str "ACCEPTED" ↔
        (jget? q "scan_match" = some (.bool true) ∧
         jget? q "modality_match" = some (.bool true) ∧
         jgetD q "image_quality" (.str "rejected") ≠ .str "rejected")) ∧
      jgetN r "status" = statusRule (jgetD q "image_quality" (.str "rejected"))
        (jgetD q "scan_match" (.bool false)) (jgetD q "modality_match" (.bool false)) := by
  have hmain := analyze_scan_ok_ok env x order fs0 ps locs fls crtd d q hps hpne hdl hlne hd hq
  rw [if_neg (by simp [hde, hqe])] at hmain
  have hS : (jgetD q "scan_match" (.bool false)).truthy = true ↔
      jget? q "scan_match" = some (.bool true) := by
    cases hsv : jget? q "scan_match" with
    | none => rw [jgetD_eq_dflt hsv]; simp [JVal.truthy]
    | some v =>
      obtain ⟨b, rfl⟩ := hsm v hsv
      rw [jgetD_eq_of_get hsv]
      cases b <;> simp [JVal.truthy]
  have hM : (jgetD q "modality_match" (.bool false)).truthy = true ↔
      jget? q "modality_match" = some (.bool true) := by
    cases hmv : jget? q "modality_match" with
    | none => rw [jgetD_eq_dflt hmv]; simp [JVal.truthy]
    | some v =>
      obtain ⟨b, rfl⟩ := hmm v hmv
      rw [jgetD_eq_of_get hmv]
      cases b <;> simp [JVal.truthy]
  refine ⟨combineResults d q order, ⟨1, 1⟩, removeFiles (crtd ++ fs0) locs, hmain, ?_,
    combine_status d q order⟩
  rw [combine_status, statusRule_accepted_iff, hS, hM, eqStr_false_iff_ne]

theorem c1_witness :
    ∃ r calls fs1, analyze_scan envMain (.str "u") [] [] = (.ok r, calls, fs1) ∧
      (jgetN r "status" = .str "ACCEPTED" ↔
        (jget? qRes "scan_match" = some (.bool true) ∧
         jget? qRes "modality_match" = some (.bool true) ∧
         jgetD qRes "image_quality" (.str "rejected") ≠ .str "rejected")) ∧
      jgetN r "status" = statusRule (jgetD qRes "image_quality" (.str "rejected"))
        (jgetD qRes "scan_match" (.bool false)) (jgetD qRes "modality_match" (.bool false)) :=
  c1_status_decision envMain (.str "u") [] [] ["u"] ["/tmp/img0.png"] [] ["/tmp/img0.png"]
    dRes qRes rfl (by decide) rfl (by decide) rfl rfl rfl rfl
    (fun v h => ⟨true, (Option.some.inj h).symm⟩)
    (fun v h => ⟨true, (Option.some.inj h).symm⟩)

/-! ## C3: any client error forces a rejected report carrying both error fields -/

/-- C3: on the joined path (non-empty locators, at least one download, no
exception), if at least one client result contains an `"error"` key the
report is exactly the REJECTED error-report whose `diagnosis_error` and
`quality_error` fields carry both clients' `"error"` values (the
successful side contributing `null`), and it is never ACCEPTED; and the
presence of the `"error"` key is the sole failure signal: when neither
result has the key, the merged report is produced instead. -/
theorem c3_error_forces_rejection (env : ScanEnv) (x : PyVal) (order : Dict) (fs0 : List String)
    (ps locs fls crtd : List String) (d q : Dict)
    (hps : parseImagePaths env.penv x = ps) (hpne : ps ≠ [])
    (hdl : downloadAll env.download ps = (locs, fls, crtd)) (hlne : locs ≠ [])
    (hd : env.diag ps order = .ok (.obj d)) (hq : env.qual locs order = .ok (.obj q)) :
    ((hasKey d "error" || hasKey q "error") = true →
      analyze_scan env x order fs0 =
        (.ok (errorReport d q), ⟨1, 1⟩, removeFiles (crtd ++ fs0) locs) ∧
      jgetN (errorReport d q) "status" = .str "REJECTED" ∧
      jgetN (errorReport d q) "status" ≠ .str "ACCEPTED" ∧
      jgetN (errorReport d q) "diagnosis_error" = jgetN d "error" ∧
      jgetN (errorReport d q) "quality_error" = jgetN q "error") ∧
    ((hasKey d "error" || hasKey q "error") = false →
      analyze_scan env x order fs0 =
        (.ok (combineResults d q order), ⟨1, 1⟩, removeFiles (crtd ++ fs0) locs)) := by
  have hmain := analyze_scan_ok_ok env x order fs0 ps locs fls crtd d q hps hpne hdl hlne hd hq
  constructor
  · intro herr
    rw [if_pos herr] at hmain
    refine ⟨hmain, rfl, ?_, ?_, ?_⟩
    · intro hc
      injection hc with hs
      exact absurd hs (by decide)
    · simp [errorReport, jgetN, jgetD, jget?, List.find?]
    · simp [errorReport, jgetN, jgetD, jget?, List.find?]
  · intro herr
    rw [if_neg (by simp [herr])] at hmain
    exact hmain

/-- A diagnostic result that reports a failure. -/
def dErr : Dict := [("error", .str "Failed to get diagnostic analysis: boom")]

def envErr : ScanEnv :=
  ⟨penvRaises, fun _ => .ok "/tmp/img0.png",
   fun _ _ => .ok (.obj dErr), fun _ _ => .ok (.obj qRes)⟩

theorem c3_witness :
    analyze_scan envErr (.str "u") [] [] =
      (.ok (errorReport dErr qRes), ⟨1, 1⟩, removeFiles (["/tmp/img0.png"] ++ []) ["/tmp/img0.png"]) ∧
    jgetN (errorReport dErr qRes) "status" = .str "REJECTED" ∧
    jgetN (errorReport dErr qRes) "status" ≠ .str "ACCEPTED" ∧
    jgetN (errorReport dErr qRes) "diagnosis_error" = jgetN dErr "error" ∧
    jgetN (errorReport dErr qRes) "quality_error" = jgetN qRes "error" :=
  (c3_error_forces_rejection envErr (.str "u") [] [] ["u"] ["/tmp/img0.png"] [] ["/tmp/img0.png"]
    dErr qRes rfl (by decide) rfl (by decide) rfl rfl).1 rfl

/-! ## C10: conservative defaults for missing quality keys -/

/-- C10: when both clients succeed but the quality result lacks keys, the
merge defaults conservatively — a missing `image_quality` becomes
`"rejected"` and missing `scan_match` / `modality_match` become `False` —
so a quality result missing any of the three keys always yields a
REJECTED report, never ACCEPTED. -/
theorem c10_missing_keys_reject (env : ScanEnv) (x : PyVal) (order : Dict) (fs0 : List String)
    (ps locs fls crtd : List String) (d q : Dict)
    (hps : parseImagePaths env.penv x = ps) (hpne : ps ≠ [])
    (hdl : downloadAll env.download ps = (locs, fls, crtd)) (hlne : locs ≠ [])
    (hd : env.diag ps order = .ok (.obj d)) (hq : env.qual locs order = .ok (.obj q))
    (hde : hasKey d "error" = false) (hqe : hasKey q "error" = false) :
    ∃ r calls fs1, analyze_scan env x order fs0 = (.ok r, calls, fs1) ∧
      (jget? q "image_quality" = none → jgetN r "quality" = .str "rejected") ∧
      (jget? q "scan_match" = none → jgetN r "scan_match" = .bool false) ∧
      (jget? q "modality_match" = none → jgetN r "modality_match" = .bool false) ∧
      ((jget? q "image_quality" = none ∨ jget? q "scan_match" = none ∨
        jget? q "modality_match" = none) → jgetN r "status" = .str "REJECTED") := by
  have hmain := analyze_scan_ok_ok env x order fs0 ps locs fls crtd d q hps hpne hdl hlne hd hq
  rw [if_neg (by simp [hde, hqe])] at hmain
  refine ⟨combineResults d q order, ⟨1, 1⟩, removeFiles (crtd ++ fs0) locs, hmain, ?_, ?_, ?_, ?_⟩
  · intro hn
    rw [combine_quality, jgetD_eq_dflt hn]
  · intro hn
    rw [combine_scan_match, jgetD_eq_dflt hn]
  · intro hn
    rw [combine_modality_match, jgetD_eq_dflt hn]
  · intro hn
    rw [combine_status]
    unfold statusRule
    rcases hn with hn | hn | hn
    · rw [jgetD_eq_dflt hn, if_pos (by simp [JVal.eqStr])]
    · rw [jgetD_eq_dflt hn, if_pos (by simp [JVal.truthy])]
    · rw [jgetD_eq_dflt hn, if_pos (by simp [JVal.truthy])]

def envMissing : ScanEnv :=
  ⟨penvRaises, fun _ => .ok "/tmp/img0.png",
   fun _ _ => .ok (.obj dRes), fun _ _ => .ok (.obj [])⟩

theorem c10_witness :
    ∃ r calls fs1, analyze_scan envMissing (.str "u") [] [] = (.ok r, calls, fs1) ∧
      (jget? ([] : Dict) "image_quality" = none → jgetN r "quality" = .str "rejected") ∧
      (jget? ([] : Dict) "scan_match" = none → jgetN r "scan_match" = .bool false) ∧
      (jget? ([] : Dict) "modality_match" = none → jgetN r "modality_match" = .bool false) ∧
      ((jget? ([] : Dict) "image_quality" = none ∨ jget? ([] : Dict) "scan_match" = none ∨
        jget? ([] : Dict) "modality_match" = none) → jgetN r "status" = .str "REJECTED") :=
  c10_missing_keys_reject envMissing (.str "u") [] [] ["u"] ["/tmp/img0.png"] [] ["/tmp/img0.png"]
    dRes [] rfl (by decide) rfl (by decide) rfl rfl rfl rfl

/-! ## C2: fault containment -/

/-- A COMPLETED status response whose nested token text is `s`, shaped as
`{status: COMPLETED, output: [{choices: [{tokens: [s]}]}]}`. -/
def completedResp (s : String) : Dict :=
  [("status", .str "COMPLETED"),
   ("output", .arr [.obj [("choices", .arr [.obj [("tokens", .arr [.str s])]])]])]

theorem extractTokenStr_completedResp (s : String) :
    extractTokenStr (completedResp s) = .ok s := rfl

/-- A diagnostic-client environment that submits successfully and whose
single poll returns COMPLETED with token text `s`. -/
def mkDiagEnv (loads : String → Option JVal) (s : String) : DiagEnv :=
  ⟨.ok "", .ok [("id", .str "job-1")], [.ok (completedResp s)], loads⟩


/-- A diagnostic-client environment whose prompt file is unreadable. -/
def denvNoPrompt : DiagEnv :=
  ⟨.error "FileNotFoundError: app/services/MedgemmaPromptV5.txt", .ok [], [], loadsNone⟩

/-- An orchestrator environment whose diagnostic client raises exactly the
exception that `analyzeDiagnosisAndMatch denvNoPrompt` propagates. -/
def envC2 : ScanEnv :=
  ⟨penvRaises, fun _ => .ok "/tmp/img0.png",
   fun _ _ => .error "FileNotFoundError: app/services/MedgemmaPromptV5.txt",
   fun _ _ => .ok (.obj qRes)⟩

/-- `json.loads` at the bare response text `"5"`: Python parses it to the
integer `5` (a non-dict JSON value). -/
def loadsNum : String → Option JVal := fun _ => some (.num 5)

/-- An orchestrator environment whose diagnostic client returned the
successfully parsed non-dict `5` — exactly what
`analyzeDiagnosisAndMatch (mkDiagEnv loadsNum "5")` produces. -/
def envC2b : ScanEnv :=
  ⟨penvRaises, fun _ => .ok "/tmp/img0.png",
   fun _ _ => .ok (.num 5), fun _ _ => .ok (.obj qRes)⟩

/-- C2 counterexample, two independent escapes.  (1)-(2): the diagnostic
client opens its prompt file before its `try` block, so an unreadable
prompt file escapes the client, and `analyze_scan`, which has no handler
of its own, re-raises it to the caller instead of returning a report.
(3)-(4): a model response that is valid JSON but not an object (here the
text `"5"`, which `json.loads` parses to `5`) is returned by the client
without error, and then `analyze_scan`'s own merge raises: `"error" in 5`
is a `TypeError` at line 245, which also escapes to the caller — with
both prompt files perfectly readable. -/
theorem c2_counterexample :
    analyzeDiagnosisAndMatch denvNoPrompt =
      some (.error "FileNotFoundError: app/services/MedgemmaPromptV5.txt") ∧
    analyze_scan envC2 (.str "u") [] [] =
      (.error "FileNotFoundError: app/services/MedgemmaPromptV5.txt", ⟨1, 1⟩, []) ∧
    analyzeDiagnosisAndMatch (mkDiagEnv loadsNum "5") = some (.ok (.num 5)) ∧
    analyze_scan envC2b (.str "u") [] [] =
      (.error "TypeError: argument of type 'int' is not iterable", ⟨1, 1⟩, []) :=
  ⟨rfl, rfl, rfl, rfl⟩

theorem hasKey_combine_status (d q o : Dict) :
    hasKey (combineResults d q o) "status" = true := by
  have h := combine_status d q o
  rcases statusRule_cases (jgetD q "image_quality" (.str "rejected"))
      (jgetD q "scan_match" (.bool false)) (jgetD q "modality_match" (.bool false)) with hs | hs <;>
    exact hasKey_of_jgetN_str (by rw [h, hs])

/-- C2 amended: whenever neither client propagates an exception and both
clients' results are JSON objects — the two unguarded spots being the
prompt-file reads before the `try` blocks and the merge's
`"error" in result` / `.get` calls on a parsed non-dict — `analyze_scan`
returns a well-formed report with a `status` field (first conjunct); and
each client converts every failure inside its `try` block into an error
dict, never an exception, once its prompt read succeeded (second and
third conjuncts: a normal client return is always `.ok`). -/
theorem c2_amended_reports_when_prompts_readable :
    (∀ (env : ScanEnv) (x : PyVal) (order : Dict) (fs0 : List String),
      (∀ ps o, ∃ dd, env.diag ps o = .ok (.obj dd)) →
      (∀ ps o, ∃ qq, env.qual ps o = .ok (.obj qq)) →
      ∃ r calls fs1, analyze_scan env x order fs0 = (.ok r, calls, fs1) ∧
        hasKey r "status" = true) ∧
    (∀ denv : DiagEnv, (∃ p, denv.promptRead = .ok p) →
      ∀ res, analyzeDiagnosisAndMatch denv = some res → ∃ v, res = .ok v) ∧
    (∀ (qenv : QualEnv) (paths : List String), (∃ p, qenv.promptRead = .ok p) →
      ∃ v, assessImageQuality qenv paths = .ok v) := by
  refine ⟨?_, ?_, ?_⟩
  · intro env x order fs0 hdg hql
    by_cases hp : (parseImagePaths env.penv x).isEmpty
    · refine ⟨noImagesReport, ⟨0, 0⟩, fs0, ?_, rfl⟩
      simp only [analyze_scan]
      rw [if_pos hp]
    · by_cases hl : (downloadAll env.download (parseImagePaths env.penv x)).1.isEmpty
      · refine ⟨downloadsFailedReport
          (downloadAll env.download (parseImagePaths env.penv x)).2.1, ⟨0, 0⟩,
          (downloadAll env.download (parseImagePaths env.penv x)).2.2 ++ fs0, ?_, rfl⟩
        simp only [analyze_scan]
        rw [if_neg hp, if_pos hl]
      · obtain ⟨dd, hdd⟩ := hdg (parseImagePaths env.penv x) order
        obtain ⟨qq, hqq⟩ := hql (downloadAll env.download (parseImagePaths env.penv x)).1 order
        have hmain := analyze_scan_ok_ok env x order fs0 (parseImagePaths env.penv x)
          (downloadAll env.download (parseImagePaths env.penv x)).1
          (downloadAll env.download (parseImagePaths env.penv x)).2.1
          (downloadAll env.download (parseImagePaths env.penv x)).2.2
          dd qq rfl (by intro hc; exact hp (by simp [hc])) rfl
          (by intro hc; exact hl (by simp [hc])) hdd hqq
        by_cases hek : (hasKey dd "error" || hasKey qq "error") = true
        · rw [if_pos hek] at hmain
          exact ⟨errorReport dd qq, ⟨1, 1⟩, _, hmain, rfl⟩
        · rw [if_neg hek] at hmain
          exact ⟨combineResults dd qq order, ⟨1, 1⟩, _, hmain,
            hasKey_combine_status dd qq order⟩
  · rintro ⟨pr, sub, polls, loads⟩ ⟨p, hp⟩ res hres
    simp only at hp
    subst hp
    simp only [analyzeDiagnosisAndMatch] at hres
    cases sub with
    | error e => exact ⟨.obj (errDiag e), (Option.some.inj hres).symm⟩
    | ok resp =>
      dsimp only at hres
      cases hid : jget? resp "id" with
      | none =>
        rw [hid] at hres
        exact ⟨.obj (errDiag "KeyError: id"), (Option.some.inj hres).symm⟩
      | some v =>
        rw [hid] at hres
        dsimp only at hres
        cases hpoll : (pollRun loads polls).2.2 with
        | hang => rw [hpoll] at hres; exact Option.noConfusion hres
        | exc e => rw [hpoll] at hres; exact ⟨.obj (errDiag e), (Option.some.inj hres).symm⟩
        | ok v => rw [hpoll] at hres; exact ⟨v, (Option.some.inj hres).symm⟩
  · rintro ⟨pr, imageOpen, respText, loads⟩ paths ⟨p, hp⟩
    simp only at hp
    subst hp
    simp only [assessImageQuality]
    cases hfo : paths.findSome?
        (fun pth => match imageOpen pth with | .error e => some e | .ok _ => none) with
    | some e => exact ⟨.obj (errQual e), rfl⟩
    | none =>
      cases respText with
      | error e => exact ⟨.obj (errQual e), rfl⟩
      | ok text =>
        dsimp only
        cases hld : loads (extractFencedQual text) with
        | some v => exact ⟨v, rfl⟩
        | none => exact ⟨.obj (errQual "json.decoder.JSONDecodeError"), rfl⟩

theorem c2_witness :
    ∃ r calls fs1, analyze_scan envMain (.str "u") [] [] = (.ok r, calls, fs1) ∧
      hasKey r "status" = true :=
  c2_amended_reports_when_prompts_readable.1 envMain (.str "u") [] []
    (fun _ _ => ⟨dRes, rfl⟩) (fun _ _ => ⟨qRes, rfl⟩)

/-! ## C4: the zero-image short circuit -/

def penvC4 : StrParseEnv :=
  ⟨fun s => if s = "[]" then .listVal [] else .raises, fun _ => .raises⟩

def envC4 : ScanEnv :=
  ⟨penvC4, fun _ => .failEarly, fun _ _ => .ok (.obj []), fun _ _ => .ok (.obj [])⟩

/-- C4 counterexample: with zero retrievable images the orchestrator does
short-circuit with zero client calls, but neither short-circuit reason is
the fixed string `"image download failed"` claimed by the spec: the
no-locators path says `"No valid image paths provided."` and the
all-downloads-failed path says `"Failed to download any images from the
provided URLs."`. -/
theorem c4_counterexample :
    analyze_scan envC4 (.str "[]") [] [] = (.ok noImagesReport, ⟨0, 0⟩, []) ∧
    jgetN noImagesReport "reason" ≠ .str "image download failed" ∧
    analyze_scan envC4 (.str "u") [] [] = (.ok (downloadsFailedReport ["u"]), ⟨0, 0⟩, []) ∧
    jgetN (downloadsFailedReport ["u"]) "reason" ≠ .str "image download failed" := by
  refine ⟨rfl, ?_, rfl, ?_⟩
  · intro hc
    simp [noImagesReport, jgetN, jgetD, jget?, List.find?] at hc
  · intro hc
    simp [downloadsFailedReport, jgetN, jgetD, jget?, List.find?] at hc

/-- C4 amended: whenever zero images are retrievable — no locators parse,
or every download fails — `analyze_scan` short-circuits to a REJECTED
report and makes no remote calls (both call counters are zero); the
report's reason is the fixed string of the path taken:
`"No valid image paths provided."` or
`"Failed to download any images from the provided URLs."` (not
`"image download failed"`). -/
theorem c4_amended_short_circuit (env : ScanEnv) (x : PyVal) (order : Dict) (fs0 : List String)
    (h : parseImagePaths env.penv x = [] ∨
         (parseImagePaths env.penv x ≠ [] ∧
          (downloadAll env.download (parseImagePaths env.penv x)).1 = [])) :
    ∃ r fs1, analyze_scan env x order fs0 = (.ok r, ⟨0, 0⟩, fs1) ∧
      jgetN r "status" = .str "REJECTED" ∧
      (jgetN r "reason" = .str "No valid image paths provided." ∨
       jgetN r "reason" = .str "Failed to download any images from the provided URLs.") := by
  rcases h with h | ⟨hne, hl⟩
  · refine ⟨noImagesReport, fs0, ?_, rfl, Or.inl rfl⟩
    simp only [analyze_scan]
    rw [h]
    rfl
  · refine ⟨downloadsFailedReport (downloadAll env.download (parseImagePaths env.penv x)).2.1,
      (downloadAll env.download (parseImagePaths env.penv x)).2.2 ++ fs0, ?_, rfl, Or.inr rfl⟩
    simp only [analyze_scan]
    rw [if_neg (by simp [hne]), if_pos (by simp [hl])]

theorem c4_witness :
    ∃ r fs1, analyze_scan envC4 (.str "[]") [] [] = (.ok r, ⟨0, 0⟩, fs1) ∧
      jgetN r "status" = .str "REJECTED" ∧
      (jgetN r "reason" = .str "No valid image paths provided." ∨
       jgetN r "reason" = .str "Failed to download any images from the provided URLs.") :=
  c4_amended_short_circuit envC4 (.str "[]") [] [] (Or.inl rfl)

/-! ## C5: temporary-file cleanup -/

/-- The successfully downloaded local paths are a sublist of all temp
files created on disk. -/
theorem downloadAll_locs_sublist (download : String → DlOutcome) :
    ∀ ps : List String, (downloadAll download ps).1.Sublist (downloadAll download ps).2.2
  | [] => List.Sublist.refl []
  | p :: ps => by
    rcases hdp : download p with t | _ | t <;>
      simp only [downloadAll, hdp]
    · exact (downloadAll_locs_sublist download ps).cons₂ t
    · exact downloadAll_locs_sublist download ps
    · exact (downloadAll_locs_sublist download ps).cons t

/-- `removeFiles` never adds files. -/
theorem removeFiles_not_mem {x : String} :
    ∀ (ps fs : List String), x ∉ fs → x ∉ removeFiles fs ps
  | [], _, h => h
  | p :: ps, fs, h => by
    rw [removeFiles]
    apply removeFiles_not_mem ps
    split
    · intro hc
      exact h (List.erase_subset p fs hc)
    · exact h

/-- A file occurring at most once on disk and listed for removal is gone
afterwards. -/
theorem removeFiles_removes {x : String} :
    ∀ (ps fs : List String), x ∈ ps → List.count x fs ≤ 1 → x ∉ removeFiles fs ps
  | [], _, hx, _ => absurd hx (List.not_mem_nil x)
  | p :: ps, fs, hx, hcount => by
    rw [removeFiles]
    by_cases hxp : x = p
    · subst hxp
      apply removeFiles_not_mem ps
      by_cases hin : fs.contains x
      · rw [if_pos hin]
        apply List.count_eq_zero.mp
        rw [List.count_erase_self]
        omega
      · rw [if_neg hin]
        intro hc
        rw [Bool.not_eq_true] at hin
        simp at hin
        exact hin hc
    · have hx' : x ∈ ps := by
        rcases List.mem_cons.mp hx with h | h
        · exact absurd h hxp
        · exact h
      apply removeFiles_removes ps _ hx'
      split
      · exact le_trans ((List.erase_sublist p fs).count_le x) hcount
      · exact hcount

/-- C5 amended: every temporary file recorded as a successful download
(`local_image_paths`) is absent from the filesystem after `analyze_scan`
returns, on every exit path — success, either client erroring, an
exception propagating, or the all-downloads-failed short circuit — given
that temp names are fresh and distinct (as `NamedTemporaryFile`
guarantees).  (The original claim fails for files created by downloads
that die mid-transfer; see the counterexample.) -/
theorem c5_amended_locals_cleaned (env : ScanEnv) (x : PyVal) (order : Dict) (fs0 : List String)
    (hnd : (downloadAll env.download (parseImagePaths env.penv x)).2.2.Nodup)
    (hfresh : ∀ t ∈ (downloadAll env.download (parseImagePaths env.penv x)).2.2, t ∉ fs0) :
    ∀ t ∈ (downloadAll env.download (parseImagePaths env.penv x)).1,
      t ∉ (analyze_scan env x order fs0).2.2 := by
  intro t ht
  have htl : t ∈ (downloadAll env.download (parseImagePaths env.penv x)).2.2 :=
    (downloadAll_locs_sublist env.download (parseImagePaths env.penv x)).mem ht
  have hcount : List.count t
      ((downloadAll env.download (parseImagePaths env.penv x)).2.2 ++ fs0) ≤ 1 := by
    rw [List.count_append]
    have h1 : List.count t (downloadAll env.download (parseImagePaths env.penv x)).2.2 ≤ 1 :=
      List.nodup_iff_count_le_one.mp hnd t
    have h2 : List.count t fs0 = 0 := List.count_eq_zero.mpr (hfresh t htl)
    omega
  simp only [analyze_scan]
  split
  · rename_i hemp
    rw [List.isEmpty_iff] at hemp
    rw [hemp] at ht
    simp [downloadAll] at ht
  · split
    · rename_i hl
      rw [List.isEmpty_iff] at hl
      rw [hl] at ht
      exact absurd ht (List.not_mem_nil t)
    · exact removeFiles_removes _ _ ht hcount

theorem c5_witness :
    "/tmp/img0.png" ∉ (analyze_scan envMain (.str "u") [] []).2.2 :=
  c5_amended_locals_cleaned envMain (.str "u") [] [] (by decide) (by decide)
    "/tmp/img0.png" (by decide)

/-- An environment whose single download dies mid-transfer: the temp file
was created, but `_download_image_to_tempfile` returns `None` and the
file's name is lost. -/
def envLeak : ScanEnv :=
  ⟨penvRaises, fun _ => .failMid "/tmp/leak1.png",
   fun _ _ => .ok (.obj []), fun _ _ => .ok (.obj [])⟩

/-- C5 counterexample: a download that raises while streaming (a
`requests` exception during `iter_content`) happens after
`NamedTemporaryFile(delete=False)` created the file; the handler returns
`None`, so the file is in no cleanup list, and it is still on the
filesystem after `analyze_scan` returns. -/
theorem c5_counterexample :
    analyze_scan envLeak (.list ["http://h/a.png"]) [] [] =
      (.ok (downloadsFailedReport ["http://h/a.png"]), ⟨0, 0⟩, ["/tmp/leak1.png"]) ∧
    "/tmp/leak1.png" ∈ (analyze_scan envLeak (.list ["http://h/a.png"]) [] []).2.2 :=
  ⟨rfl, List.mem_singleton.mpr rfl⟩

/-! ## C7: fenced-JSON parsing in both clients -/

theorem findSome?_const_none {α : Type} :
    ∀ l : List α, l.findSome? (fun _ => (none : Option String)) = none
  | [] => rfl
  | a :: t => by
    simp [List.findSome?, findSome?_const_none t]

/-- When the text contains neither fence marker at all, the diagnostic
extraction returns the whole text unchanged (Python's `split` leaves an
unmatched string in one piece). -/
theorem extractFencedDiag_no_fences (s : String)
    (h1 : seqOccurs fenceOpen.data s.data = false)
    (h2 : seqOccurs fenceClose.data s.data = false) :
    extractFencedDiag s = s := by
  rw [fenceOpen_data] at h1
  rw [fenceClose_data] at h2
  have p1 : pySplit fenceOpen s = [s] := by
    show (splitNE tick openTail s.data).map String.mk = _
    rw [splitNE_no_occurs tick openTail s.data h1]
    rfl
  have p2 : pySplit fenceClose s = [s] := by
    show (splitNE '\n' closeTail s.data).map String.mk = _
    rw [splitNE_no_occurs '\n' closeTail s.data h2]
    rfl
  unfold extractFencedDiag
  rw [p1]
  show (pySplit fenceClose s).headD "" = s
  rw [p2]
  rfl

/-- What the diagnostic client returns when submission succeeds and the
single poll completes with token text `s`: exactly the parse of the
extracted substring, or the JSON-decode error dict. -/
theorem diag_client_behaviour (loads : String → Option JVal) (s : String) :
    analyzeDiagnosisAndMatch (mkDiagEnv loads s) =
      some (match loads (extractFencedDiag s) with
        | some v => .ok v
        | none => .ok (.obj (errDiag "json.decoder.JSONDecodeError"))) := by
  show (match (pollRun loads [.ok (completedResp s)]).2.2 with
    | PollResult.hang => none
    | PollResult.exc e => some (Except.ok (JVal.obj (errDiag e)))
    | PollResult.ok v => some (Except.ok v)) = _
  rw [pollRun_ok_cons,
    if_pos (show (jgetN (completedResp s) "status").eqStr "COMPLETED" = true from rfl)]
  show (match (match loads (extractFencedDiag s) with
      | some v => PollResult.ok v
      | none => PollResult.exc "json.decoder.JSONDecodeError") with
    | PollResult.hang => none
    | PollResult.exc e => some (Except.ok (JVal.obj (errDiag e)))
    | PollResult.ok v => some (Except.ok v)) = _
  cases loads (extractFencedDiag s) with
  | some v => rfl
  | none => rfl

/-- What the quality client returns when the prompt read, the image
opens, and the model call all succeed with response text `s`. -/
theorem qual_client_behaviour (loads : String → Option JVal) (s : String) (paths : List String) :
    assessImageQuality ⟨.ok "", fun _ => .ok (), .ok s, loads⟩ paths =
      match loads (extractFencedQual s) with
      | some v => .ok v
      | none => .ok (.obj (errQual "json.decoder.JSONDecodeError")) := by
  show (match paths.findSome? (fun _ => (none : Option String)) with
    | some e => Except.ok (JVal.obj (errQual e))
    | none =>
      match loads (extractFencedQual s) with
      | some v => Except.ok v
      | none => Except.ok (JVal.obj (errQual "json.decoder.JSONDecodeError"))) = _
  rw [findSome?_const_none]

/-- C7 amended: a model response fenced exactly as
```` ```json\n{...}\n``` ```` parses to exactly the fenced JSON object in
both clients (parts 1 and 3, under the side conditions the fence cutting
needs: the diagnostic split requires no stray fence occurrences, the
quality strip requires a body with non-whitespace edges); and a response
whose extracted text fails to parse as JSON yields a result dict carrying
an `"error"` key, with no exception escaping either client (parts 2 and
4).  (A response missing the fences is NOT an error by itself: the whole
text is parsed — see the counterexample.) -/
theorem c7_amended_fence_parsing :
    (∀ (loads : String → Option JVal) (body : String) (v : JVal),
      seqOccurs fenceOpen.data (body.data ++ fenceClose.data) = false →
      straddles fenceClose.data body.data = false →
      loads body = some v →
      analyzeDiagnosisAndMatch (mkDiagEnv loads (fenceOpen ++ body ++ fenceClose)) =
        some (.ok v)) ∧
    (∀ (loads : String → Option JVal) (s : String),
      loads (extractFencedDiag s) = none →
      analyzeDiagnosisAndMatch (mkDiagEnv loads s) =
        some (.ok (.obj (errDiag "json.decoder.JSONDecodeError"))) ∧
      hasKey (errDiag "json.decoder.JSONDecodeError") "error" = true) ∧
    (∀ (loads : String → Option JVal) (body : String) (v : JVal) (paths : List String),
      body.data ≠ [] →
      (∀ c, body.data.head? = some c → c.isWhitespace = false) →
      (∀ c, body.data.getLast? = some c → c.isWhitespace = false) →
      loads body = some v →
      assessImageQuality ⟨.ok "", fun _ => .ok (), .ok (fenceOpen ++ body ++ fenceClose), loads⟩
        paths = .ok v) ∧
    (∀ (loads : String → Option JVal) (s : String) (paths : List String),
      loads (extractFencedQual s) = none →
      assessImageQuality ⟨.ok "", fun _ => .ok (), .ok s, loads⟩ paths =
        .ok (.obj (errQual "json.decoder.JSONDecodeError")) ∧
      hasKey (errQual "json.decoder.JSONDecodeError") "error" = true) := by
  refine ⟨?_, ?_, ?_, ?_⟩
  · intro loads body v h1 h2 hl
    rw [diag_client_behaviour, extractFencedDiag_roundtrip body h1 h2, hl]
  · intro loads s hl
    refine ⟨?_, rfl⟩
    rw [diag_client_behaviour, hl]
  · intro loads body v paths hne hhd hlast hl
    rw [qual_client_behaviour, extractFencedQual_roundtrip body hne hhd hlast, hl]
  · intro loads s paths hl
    refine ⟨?_, rfl⟩
    rw [qual_client_behaviour, hl]

/-- `json.loads` as it behaves on the two strings this file's C7 concrete
instances feed it: the bare object text `{"quality": "optimal"}` parses
to that one-key object; everything else here is treated as a parse
failure (the real function agrees on these inputs). -/
def loadsQualOpt : String → Option JVal :=
  fun s => if s = "\x7b\"quality\": \"optimal\"\x7d" then
      some (.obj [("quality", .str "optimal")])
    else none

/-- C7 counterexample: the response text `{"quality": "optimal"}` has no
fences at all, yet the diagnostic client does not produce an error
result: `split('```json\n')[-1]` and `split('\n```')[0]` both leave the
whole text, which is valid JSON, so the client returns the parsed object
— there is no `"error"` key.  This refutes "a response missing the
fences ... yields a result dict containing an error key". -/
theorem c7_counterexample :
    analyzeDiagnosisAndMatch (mkDiagEnv loadsQualOpt "\x7b\"quality\": \"optimal\"\x7d") =
      some (.ok (.obj [("quality", .str "optimal")])) ∧
    hasKey [("quality", JVal.str "optimal")] "error" = false := by
  refine ⟨?_, rfl⟩
  rw [diag_client_behaviour,
    extractFencedDiag_no_fences "\x7b\"quality\": \"optimal\"\x7d" (by decide) (by decide)]
  rfl

def bodyEx : String := "\x7b\"quality\": \"optimal\"\x7d"

theorem c7_witness :
    analyzeDiagnosisAndMatch (mkDiagEnv loadsQualOpt (fenceOpen ++ bodyEx ++ fenceClose)) =
      some (.ok (.obj [("quality", JVal.str "optimal")])) :=
  c7_amended_fence_parsing.1 loadsQualOpt bodyEx (.obj [("quality", .str "optimal")])
    (by decide) (by decide) rfl

end MedScan
